import Mathlib

/-!
Shallow embedding of the Tuya local-protocol client in `esp32/main.py`.

Conventions of the embedding:

* Byte strings are `List Nat`; every entry produced by the source is `< 256`.
* The protocol version is scaled by ten (`3.3 ↦ 33`, `3.4 ↦ 34`), so the
  source's float comparisons `version >= 3.4` / `>= 3.3` become
  `34 ≤ version` / `33 ≤ version`.
* External primitives the source only consumes (SHA-256 via `hashlib`,
  single-key AES-ECB block encryption via `ucryptolib`/`pycryptodome`,
  `binascii.crc32`, and `json.dumps`/`json.loads`) are parameters of the
  embedding, bundled in the structure `Prims`.  `jdumps` serialises a
  structured payload of abstract type `J`; the source only ever serialises
  dicts, whose JSON text starts with the byte `123` (`{`).
* Python code that raises is modelled with `Option`: `_unpad` on an empty
  input raises `IndexError` in the source, so the model returns `none`,
  and callers that catch the exception match on `none`.
* Python slice semantics (`data[20:stop]`, where `stop` may be negative or
  past the end and then clamps, never raising) are reproduced by
  `pyStop`/`pySlice20`.
* `int.to_bytes(4, 'big')` is modelled by `toBytesBE4`, which reduces each
  byte mod 256; the source instead raises `OverflowError` for values
  ≥ 2^32, so the two agree on the whole domain where the source is
  defined.
-/

/-- The external primitives `esp32/main.py` consumes but does not
implement, abstracted over the structured-payload type `J`. -/
structure Prims (J : Type) where
  sha256 : List Nat → List Nat
  aesEnc : List Nat → List Nat → List Nat
  aesDec : List Nat → List Nat → List Nat
  crc32 : List Nat → Nat
  jdumps : J → List Nat
  jloads : List Nat → Option J

/-- `hmac_sha256(key, msg)` from the source: the standard nested
construction over a 64-byte block, hashing the key first when it is longer
than the block and zero-padding it to the block size otherwise. -/
def hmac_sha256 {J : Type} (P : Prims J) (key msg : List Nat) : List Nat :=
  let key1 := if 64 < key.length then P.sha256 key else key
  let key2 := if key1.length < 64 then key1 ++ List.replicate (64 - key1.length) 0 else key1
  let o_key_pad := key2.map (fun k => Nat.xor k 92)
  let i_key_pad := key2.map (fun k => Nat.xor k 54)
  P.sha256 (o_key_pad ++ P.sha256 (i_key_pad ++ msg))

/-- `TuyaDevice._pad`: block padding to a 16-byte multiple, the pad byte
equal to the number of bytes added (1..16). -/
def _pad (data : List Nat) : List Nat :=
  let pad_len := 16 - data.length % 16
  data ++ List.replicate pad_len pad_len

/-- `TuyaDevice._unpad`: `data[:-data[-1]]`.  On empty input the source
raises `IndexError` (modelled `none`).  Python's `-0` is `0`, so a final
byte of `0` yields `data[:0] = b''`, i.e. the whole input is discarded. -/
def _unpad (data : List Nat) : Option (List Nat) :=
  match data.getLast? with
  | none => none
  | some last => some (if last = 0 then [] else data.take (data.length - last))

/-- `int.to_bytes(4, 'big')`.  The source raises `OverflowError` at
values ≥ 2^32; the model reduces mod 2^32 (the two agree wherever the
source is defined). -/
def toBytesBE4 (v : Nat) : List Nat :=
  [v / 16777216 % 256, v / 65536 % 256, v / 256 % 256, v % 256]

/-- `struct.unpack('>I', bs)` on a 4-byte slice. -/
def beU32 (bs : List Nat) : Nat := bs.foldl (fun a b => 256 * a + b) 0

/-- `data[off : off + n]` for non-negative in-range offsets. -/
def sliceN (data : List Nat) (off n : Nat) : List Nat := (data.drop off).take n

/-- The effective stop index of a Python slice `data[_ : stop]` over a
list of length `len`: negative stops count from the end and clamp at 0,
non-negative stops clamp at `len`. -/
def pyStop (len : Nat) (stop : Int) : Nat :=
  if stop < 0 then len - (-stop).toNat else min stop.toNat len

/-- Python `data[20 : stop]` with full slice-clamping semantics. -/
def pySlice20 (data : List Nat) (stop : Int) : List Nat :=
  (data.take (pyStop data.length stop)).drop 20

/-- The stop expression `16 + payload_len - suffix_len`, evaluated in
unbounded Python integers (hence over `Int`). -/
def sliceStop (payload_len suffix_len : Nat) : Int :=
  (16 : Int) + payload_len - suffix_len

/-- Byte-wise XOR of two byte strings, as
`bytes([a ^ b for a, b in zip(x, y)])`. -/
def xorBytes (a b : List Nat) : List Nat := (a.zip b).map (fun p => Nat.xor p.1 p.2)

/-- The mutable state of a `TuyaDevice` (the socket itself is an external
resource and is modelled out; `disconnect` below resets the fields the
source resets alongside closing it). -/
structure TuyaDevice where
  device_id : String
  ip : String
  version : Nat
  real_local_key : List Nat
  local_key : List Nat
  seq : Nat
  session_key : Option (List Nat)
  local_nonce : Option (List Nat)
  remote_nonce : Option (List Nat)
deriving DecidableEq

/-- `TuyaDevice.__init__`: `local_key` starts equal to the real pre-shared
key, the sequence counter at 0, and no nonces or session key. -/
def TuyaDevice.init (device_id ip : String) (local_key : List Nat) (version : Nat) :
    TuyaDevice :=
  { device_id := device_id, ip := ip, version := version,
    real_local_key := local_key, local_key := local_key, seq := 0,
    session_key := none, local_nonce := none, remote_nonce := none }

/-- `TuyaDevice._encrypt`: pad, then AES-ECB under the currently active
key `local_key`. -/
def _encrypt {J : Type} (P : Prims J) (dev : TuyaDevice) (data : List Nat) : List Nat :=
  P.aesEnc dev.local_key (_pad data)

/-- `TuyaDevice._decrypt`: AES-ECB under the active key, then unpad.
`none` models the `IndexError` `_unpad` raises on empty input. -/
def _decrypt {J : Type} (P : Prims J) (dev : TuyaDevice) (data : List Nat) :
    Option (List Nat) :=
  _unpad (P.aesDec dev.local_key data)

/-- The command codes whose payload never receives a plaintext version
header, in the source's order. -/
def NO_PROTOCOL_HEADER_CMDS : List Nat := [10, 16, 18, 9, 3, 4, 5, 64]

/-- `b'3.4' + 12 * b'\x00'`. -/
def versionHeader34 : List Nat := [51, 46, 52] ++ List.replicate 12 0

/-- `b'3.3' + 12 * b'\x00'`. -/
def versionHeader33 : List Nat := [51, 46, 51] ++ List.replicate 12 0

/-- `b'\x00\x00\x55\xaa'`, the source's `prefix` magic. -/
def magicHead : List Nat := [0, 0, 85, 170]

/-- `b'\x00\x00\xaa\x55'`, the source's `suffix` magic. -/
def magicTail : List Nat := [0, 0, 170, 85]

/-- The `json_data` selection at the top of `_build_payload`: command 3
sends the raw local nonce, command 5 the HMAC of the remote nonce under
the real key, otherwise the serialised payload or `b'{}'`.  The source
would raise `TypeError` on commands 3/5 with an unset nonce; it only ever
issues them after setting the nonce, and the model reads `getD []` there.
`data = none` covers the source's falsy-`data` branch (for the empty dict
`json.dumps` returns exactly `b'{}'`, so the two branches coincide). -/
def rawPayloadBytes {J : Type} (P : Prims J) (dev : TuyaDevice) (command : Nat)
    (data : Option J) : List Nat :=
  if command = 3 then dev.local_nonce.getD []
  else if command = 5 then hmac_sha256 P dev.real_local_key (dev.remote_nonce.getD [])
  else
    match data with
    | some d => P.jdumps d
    | none => [123, 125]

/-- The version-dependent transformation `_build_payload` applies to
`json_data`: for 3.4 prepend the `3.4` tag (outside the no-header set)
then encrypt; for 3.3 encrypt first, then prepend the `3.3` tag (outside
the no-header set); below 3.3 leave the bytes as they are. -/
def encodeJsonData {J : Type} (P : Prims J) (dev : TuyaDevice) (command : Nat)
    (data : Option J) : List Nat :=
  let json_data := rawPayloadBytes P dev command data
  if 34 ≤ dev.version then
    _encrypt P dev
      (if command ∈ NO_PROTOCOL_HEADER_CMDS then json_data else versionHeader34 ++ json_data)
  else if 33 ≤ dev.version then
    let enc := _encrypt P dev json_data
    if command ∈ NO_PROTOCOL_HEADER_CMDS then enc else versionHeader33 ++ enc
  else json_data

/-- `TuyaDevice._build_payload`: increments `seq`, encodes the payload,
assembles magic + sequence + command + declared length, and appends the
version-dependent checksum (HMAC-SHA256 under the active key for ≥ 3.4,
CRC32 of everything after the 4-byte magic otherwise) and the tail magic.
Returns the successor state together with the emitted bytes. -/
def _build_payload {J : Type} (P : Prims J) (dev : TuyaDevice) (command : Nat)
    (data : Option J) : TuyaDevice × List Nat :=
  let devBumped : TuyaDevice := { dev with seq := dev.seq + 1 }
  let json_data := encodeJsonData P dev command data
  let length := if 34 ≤ dev.version then json_data.length + 36 else json_data.length + 8
  let head := magicHead ++ toBytesBE4 devBumped.seq ++ toBytesBE4 command ++ toBytesBE4 length
  let body := head ++ json_data
  let chk :=
    if 34 ≤ dev.version then hmac_sha256 P dev.local_key body
    else toBytesBE4 (P.crc32 (body.drop 4) % 4294967296)
  (devBumped, body ++ chk ++ magicTail)

/-- The results `_parse_response` can produce.  Each error constructor
stands for one of the source's `{"error": ...}` returns: `errShort` for
"Response too short", `errExtract` for "Extraction failed" (dead code in
the source, see `C4`), `errDecrypt` for "Decryption failed", `errJson`
for "JSON parse failed"; `ack` is the bare `{"success": True, "retcode"}`
return and `ok` a successfully deserialised payload. -/
inductive ParseResult (J : Type) where
  | errShort
  | errExtract
  | ack (retcode : Nat)
  | errDecrypt
  | errJson
  | ok (j : J)
deriving DecidableEq

/-- The final `json.loads` step of `_parse_response` (a `decode`/parse
failure in the source is `jloads = none` here). -/
def jsonFinish {J : Type} (P : Prims J) (payload : List Nat) : ParseResult J :=
  match P.jloads payload with
  | some j => ParseResult.ok j
  | none => ParseResult.errJson

/-- The non-empty-payload tail of `_parse_response`: version ≥ 3.4
decrypts, strips a leading `b'3.4'` marker, any zero bytes and any
non-`{` bytes; version 3.3 strips the full 15-byte header when present
and then decrypts; below 3.3 the payload is used directly. -/
def parseTail {J : Type} (P : Prims J) (dev : TuyaDevice) (payload : List Nat) :
    ParseResult J :=
  if 34 ≤ dev.version then
    match _decrypt P dev payload with
    | none => ParseResult.errDecrypt
    | some pl0 =>
      jsonFinish P
        (if [51, 46, 52].isPrefixOf pl0 then
          ((pl0.drop 3).dropWhile (fun b => b == 0)).dropWhile (fun b => b != 123)
        else pl0)
  else if 33 ≤ dev.version then
    match _decrypt P dev
        (if versionHeader33.isPrefixOf payload then payload.drop 15 else payload) with
    | none => ParseResult.errDecrypt
    | some pl2 => jsonFinish P pl2
  else jsonFinish P payload

/-- `TuyaDevice._parse_response`, with the recursion on a trailing second
frame made structural on a fuel argument (each recursive call drops at
least 16 bytes, so `data.length` is always enough fuel; the source's
local bindings `payload_len`, `retcode`, `suffix_len`, `payload` appear
inlined). -/
def parseGo {J : Type} (P : Prims J) (dev : TuyaDevice) : Nat → List Nat → ParseResult J
  | 0, _ => ParseResult.errShort
  | fuel + 1, data =>
    if data.length < 20 then ParseResult.errShort
    else if (pySlice20 data (sliceStop (beU32 (sliceN data 12 4))
        (if 34 ≤ dev.version then 36 else 8))).length = 0 then
      if 16 + beU32 (sliceN data 12 4) + 28 < data.length then
        parseGo P dev fuel (data.drop (16 + beU32 (sliceN data 12 4)))
      else ParseResult.ack (beU32 (sliceN data 16 4))
    else
      parseTail P dev (pySlice20 data (sliceStop (beU32 (sliceN data 12 4))
        (if 34 ≤ dev.version then 36 else 8)))

/-- `TuyaDevice._parse_response`. -/
def _parse_response {J : Type} (P : Prims J) (dev : TuyaDevice) (data : List Nat) :
    ParseResult J :=
  parseGo P dev data.length data

/-- The fixed local nonce `b'0123456789abcdef'` the source always uses. -/
def LOCAL_NONCE : List Nat :=
  [48, 49, 50, 51, 52, 53, 54, 55, 56, 57, 97, 98, 99, 100, 101, 102]

/-- `TuyaDevice._negotiate_session_key`, as a function of the step-1/2
response bytes the peer returns (`_receive_response` is the transport
boundary).  Sends are effect-free in the model; every state mutation the
source performs before a failure return is preserved.  A decryption
`IndexError` (modelled `none`) lands in the source's `except` arm, which
returns `False`. -/
def _negotiate_session_key {J : Type} (P : Prims J) (dev : TuyaDevice)
    (response : List Nat) : TuyaDevice × Bool :=
  if dev.version < 34 then (dev, true)
  else
    let dev1 : TuyaDevice := { dev with local_nonce := some LOCAL_NONCE }
    let dev2 := (_build_payload P dev1 3 none).fst
    if response.length < 28 then (dev2, false)
    else if beU32 (sliceN response 8 4) ≠ 4 then (dev2, false)
    else
      match _decrypt P dev2
          (pySlice20 response (sliceStop (beU32 (sliceN response 12 4)) 36)) with
      | none => (dev2, false)
      | some decrypted =>
        if decrypted.length < 48 then (dev2, false)
        else
          let dev3 : TuyaDevice := { dev2 with remote_nonce := some (decrypted.take 16) }
          if sliceN decrypted 16 32 ≠
              hmac_sha256 P dev3.real_local_key (dev3.local_nonce.getD []) then
            (dev3, false)
          else
            let dev4 := (_build_payload P dev3 5 none).fst
            let sk := (_encrypt P dev4
              (xorBytes (dev4.local_nonce.getD []) (dev4.remote_nonce.getD []))).take 16
            ({ dev4 with session_key := some sk, local_key := sk }, true)

/-- `TuyaDevice.disconnect`: closes the socket (external), clears the
session key and nonces, restores the active key to the real pre-shared
key, and resets the sequence counter. -/
def disconnect (dev : TuyaDevice) : TuyaDevice :=
  { dev with session_key := none, local_key := dev.real_local_key,
             local_nonce := none, remote_nonce := none, seq := 0 }

/-- Iterated `_build_payload` calls on one session (only the returned
states, for reasoning about the sequence counter and key stability). -/
def buildTrace {J : Type} (P : Prims J) (dev : TuyaDevice)
    (reqs : List (Nat × Option J)) : TuyaDevice :=
  reqs.foldl (fun d r => (_build_payload P d r.1 r.2).fst) dev

/-- The session states reachable through the state-mutating operations of
the source: construction, frame building, session-key negotiation (with
an arbitrary peer response) and disconnect.  `_parse_response` does not
mutate the session. -/
inductive Reach {J : Type} (P : Prims J) : TuyaDevice → Prop where
  | init (device_id ip : String) (key : List Nat) (version : Nat) :
      Reach P (TuyaDevice.init device_id ip key version)
  | build (dev : TuyaDevice) (cmd : Nat) (data : Option J) : Reach P dev →
      Reach P (_build_payload P dev cmd data).fst
  | negotiate (dev : TuyaDevice) (response : List Nat) : Reach P dev →
      Reach P (_negotiate_session_key P dev response).fst
  | disc (dev : TuyaDevice) : Reach P dev →
      Reach P (disconnect dev)

/-- Frame assembly for version ≥ 3.4 following the spec's wording: tag
(outside the no-header set), encrypt the whole buffer with the active
key, and append an HMAC-SHA256 keyed by the active key over everything
built so far, then the tail magic. -/
def specFrame34 {J : Type} (P : Prims J) (dev : TuyaDevice) (cmd : Nat)
    (data : Option J) : List Nat :=
  let tagged :=
    if cmd ∈ NO_PROTOCOL_HEADER_CMDS then rawPayloadBytes P dev cmd data
    else versionHeader34 ++ rawPayloadBytes P dev cmd data
  let enc := _encrypt P dev tagged
  let head := magicHead ++ toBytesBE4 (dev.seq + 1) ++ toBytesBE4 cmd ++
    toBytesBE4 (enc.length + 36)
  head ++ enc ++ hmac_sha256 P dev.local_key (head ++ enc) ++ magicTail

/-- Frame assembly for version 3.3 following the spec's wording: encrypt
first, tag afterwards (the tag never encrypted), CRC32 over everything
after the 4-byte magic as the checksum. -/
def specFrame33 {J : Type} (P : Prims J) (dev : TuyaDevice) (cmd : Nat)
    (data : Option J) : List Nat :=
  let enc := _encrypt P dev (rawPayloadBytes P dev cmd data)
  let tagged := if cmd ∈ NO_PROTOCOL_HEADER_CMDS then enc else versionHeader33 ++ enc
  let head := magicHead ++ toBytesBE4 (dev.seq + 1) ++ toBytesBE4 cmd ++
    toBytesBE4 (tagged.length + 8)
  head ++ tagged ++ toBytesBE4 (P.crc32 ((head ++ tagged).drop 4) % 4294967296) ++ magicTail

/-- Frame assembly below version 3.3: plaintext payload, CRC32 checksum
over everything after the 4-byte magic. -/
def specFrameLegacy {J : Type} (P : Prims J) (dev : TuyaDevice) (cmd : Nat)
    (data : Option J) : List Nat :=
  let raw := rawPayloadBytes P dev cmd data
  let head := magicHead ++ toBytesBE4 (dev.seq + 1) ++ toBytesBE4 cmd ++
    toBytesBE4 (raw.length + 8)
  head ++ raw ++ toBytesBE4 (P.crc32 ((head ++ raw).drop 4) % 4294967296) ++ magicTail

/-- Modelled from the spec: the synthetic symmetric peer of the
`buildFrame`/`parseFrame` round-trip property.  A device response frame
carries a 4-byte return code between the 16-byte header and the payload,
the declared length covering return code, payload and checksum trailer;
the payload itself is encoded exactly as `_build_payload` encodes it for
the same session state (shared `encodeJsonData`).  The checksum trailer's
contents are never inspected by `_parse_response` and are zero here. -/
def peerResponse {J : Type} (P : Prims J) (dev : TuyaDevice) (command retcode : Nat)
    (data : Option J) : List Nat :=
  let body := encodeJsonData P dev command data
  let suffix_len := if 34 ≤ dev.version then 36 else 8
  magicHead ++ toBytesBE4 dev.seq ++ toBytesBE4 command ++
    toBytesBE4 (4 + body.length + suffix_len) ++ toBytesBE4 retcode ++ body ++
    List.replicate suffix_len 0

/-- The outcome of the phase-2 set attempt of `toggle_all_devices` for
one device: the send/receive raised (the source disconnects the device),
the device returned nothing, the parsed result carried an error, or the
set succeeded. -/
inductive SetOutcome where
  | raises
  | noResponse
  | errorResult
  | ok
deriving DecidableEq

/-- One device as `toggle_all_devices` observes it, at the boundary the
spec specifies: `state` is the phase-1 vote (`none` for a connection
failure or an unknown status), `socket2` whether the device still has a
socket when phase 2 runs, `outcome` what its phase-2 set attempt does. -/
structure FleetDevice where
  state : Option Bool
  socket2 : Bool
  outcome : SetOutcome
deriving DecidableEq

/-- The target-state decision of `toggle_all_devices`: drop unknown
votes; no votes → no quorum (`none`); mixed votes → `true`; uniform
votes → the inverse. -/
def decideTarget (states : List (Option Bool)) : Option Bool :=
  match states.filterMap id with
  | [] => none
  | v :: rest => if rest.any (fun s => s != v) then some true else some (!v)

/-- Whether a device counts towards `success_count` in phase 2: it must
still have a socket and its set attempt must parse without error. -/
def setSuccess (d : FleetDevice) : Bool :=
  d.socket2 && (d.outcome == SetOutcome.ok)

/-- `toggle_all_devices` at the spec's interface boundary: decide the
target from the phase-1 votes (returning `False` when no device voted),
then report whether at least one still-connected device's set attempt
succeeded. -/
def toggle_all_devices (devs : List FleetDevice) : Bool :=
  match decideTarget (devs.map FleetDevice.state) with
  | none => false
  | some _ => 0 < (devs.filter setSuccess).length

/-- A deterministic stand-in hash for witness evaluation. -/
def toySha (l : List Nat) : List Nat := List.replicate 32 (l.length % 256)

/-- Concrete primitives for witness evaluation: the identity block
cipher (which satisfies the round-trip and length laws), the toy hash,
and a JSON model where an object is `123 :: contents ++ [125]`. -/
def toyPrims : Prims (List Nat) where
  sha256 := toySha
  aesEnc := fun _ d => d
  aesDec := fun _ d => d
  crc32 := fun d => d.length
  jdumps := fun j => 123 :: (j ++ [125])
  jloads := fun l =>
    match l with
    | 123 :: rest => if rest.getLast? = some 125 then some rest.dropLast else none
    | _ => none

/-- A 16-byte witness key, distinct from `LOCAL_NONCE`. -/
def realKeyW : List Nat := List.replicate 16 65

/-- Witness devices at protocol versions 3.4, 3.3 and 3.1. -/
def dev34W : TuyaDevice := TuyaDevice.init "dev" "ip" realKeyW 34

def dev33W : TuyaDevice := TuyaDevice.init "dev" "ip" realKeyW 33

def dev31W : TuyaDevice := TuyaDevice.init "dev" "ip" realKeyW 31

/-- `hmac_sha256 toyPrims realKeyW LOCAL_NONCE` evaluates to this tag. -/
def goodHmacW : List Nat := List.replicate 32 96

/-- A step-2 peer response that verifies: command 4, declared length 89,
decrypted content = 16-byte remote nonce ++ correct tag (the final `1`
is the unpad byte under the identity cipher). -/
def respGoodW : List Nat :=
  [0, 0, 0, 0, 0, 0, 0, 0, 0, 0, 0, 4, 0, 0, 0, 89] ++ [0, 0, 0, 0] ++
    (List.replicate 16 0 ++ goodHmacW ++ [1])

/-- The same step-2 response with a corrupted tag. -/
def respBadW : List Nat :=
  [0, 0, 0, 0, 0, 0, 0, 0, 0, 0, 0, 4, 0, 0, 0, 89] ++ [0, 0, 0, 0] ++
    (List.replicate 16 0 ++ List.replicate 32 97 ++ [1])

/-- A 20-byte buffer whose declared length field (9999) is inconsistent
with its actual contents. -/
def badLenBufW : List Nat :=
  [0, 0, 0, 0, 0, 0, 0, 0, 0, 0, 0, 0] ++ toBytesBE4 9999 ++ [0, 0, 0, 0]

/-- A 28-byte acknowledgment-only frame (declared length 12 = return
code + CRC + tail, so the payload slice is empty). -/
def ackFrameW : List Nat :=
  [0, 0, 0, 0, 0, 0, 0, 0, 0, 0, 0, 0] ++ [0, 0, 0, 12] ++ [0, 0, 0, 7] ++
    [0, 0, 0, 0, 0, 0, 0, 0]

/-- A full 31-byte version-3.1 frame whose payload parses to `[49]`. -/
def fullFrameW : List Nat :=
  [0, 0, 0, 0, 0, 0, 0, 0, 0, 0, 0, 0] ++ toBytesBE4 15 ++ [0, 0, 0, 0] ++
    [123, 49, 125] ++ [0, 0, 0, 0, 0, 0, 0, 0]

/-! ## Helper lemmas -/

theorem take_append_len (a b : List Nat) (n : Nat) :
    (a ++ b).take (a.length + n) = a ++ b.take n := by
  rw [List.take_append]

theorem take_len_append (a b : List Nat) : (a ++ b).take a.length = a := by
  have h := take_append_len a b 0
  simp only [List.take_zero, List.append_nil, Nat.add_zero] at h
  exact h

theorem drop_len_append (a b : List Nat) : (a ++ b).drop a.length = b :=
  List.drop_left a b

theorem replicate_last (k : Nat) (h : 1 ≤ k) :
    List.replicate k k = List.replicate (k - 1) k ++ [k] := by
  obtain ⟨m, rfl⟩ : ∃ m, k = m + 1 := ⟨k - 1, by omega⟩
  simpa using List.replicate_succ' m (m + 1)

theorem unpad_pad (x : List Nat) : _unpad (_pad x) = some x := by
  have hpad : _pad x =
      (x ++ List.replicate (16 - x.length % 16 - 1) (16 - x.length % 16)) ++
        [16 - x.length % 16] := by
    rw [show _pad x = x ++ List.replicate (16 - x.length % 16) (16 - x.length % 16) from rfl,
        replicate_last _ (by omega), ← List.append_assoc]
  rw [hpad]
  simp only [_unpad, List.getLast?_concat]
  have hkne : ¬ (16 - x.length % 16 = 0) := by omega
  simp only [hkne, if_false]
  have hlen : ((x ++ List.replicate (16 - x.length % 16 - 1) (16 - x.length % 16)) ++
      [16 - x.length % 16]).length - (16 - x.length % 16) = x.length := by
    simp only [List.length_append, List.length_replicate, List.length_cons,
      List.length_nil]
    omega
  rw [hlen, List.append_assoc, take_len_append]

theorem beU32_toBytesBE4 (v : Nat) (h : v < 4294967296) : beU32 (toBytesBE4 v) = v := by
  simp only [beU32, toBytesBE4, List.foldl]
  omega

theorem pad_length (x : List Nat) : (_pad x).length = x.length + (16 - x.length % 16) := by
  simp [_pad]

theorem pad_pos (x : List Nat) : 0 < (_pad x).length := by
  rw [pad_length]; omega

theorem pySlice20_exact (a mid post : List Nat) (ha : a.length = 20) :
    pySlice20 (a ++ (mid ++ post)) ((20 : Int) + mid.length) = mid := by
  unfold pySlice20 pyStop
  have h0 : ¬ ((20 : Int) + mid.length < 0) := by omega
  rw [if_neg h0]
  have h1 : ((20 : Int) + mid.length).toNat = 20 + mid.length := by omega
  rw [h1]
  have h2 : (a ++ (mid ++ post)).length = 20 + mid.length + post.length := by
    simp only [List.length_append, ha]
    omega
  rw [h2]
  have h3 : min (20 + mid.length) (20 + mid.length + post.length) = 20 + mid.length := by
    omega
  rw [h3]
  have h4 : (a ++ (mid ++ post)).take (20 + mid.length) = a ++ mid := by
    rw [← ha, take_append_len, take_len_append]
  rw [h4, ← ha, drop_len_append]

theorem isPrefixOf_self_append (l r : List Nat) : l.isPrefixOf (l ++ r) = true := by
  induction l with
  | nil => simp [List.isPrefixOf]
  | cons a t ih => simp [List.isPrefixOf, ih]

theorem dropWhile_zeros (n : Nat) (l : List Nat) :
    List.dropWhile (fun b => b == 0) (List.replicate n 0 ++ l) =
      List.dropWhile (fun b => b == 0) l := by
  induction n with
  | zero => simp
  | succ m ih => simp [List.replicate_succ, List.dropWhile, ih]

theorem parseGo_irrel {J : Type} (P : Prims J) (dev : TuyaDevice) :
    ∀ f g data, data.length ≤ f → data.length ≤ g →
      parseGo P dev f data = parseGo P dev g data := by
  intro f
  induction f with
  | zero =>
    intro g data hf _
    have hnil : data = [] := List.eq_nil_of_length_eq_zero (Nat.le_zero.mp hf)
    subst hnil
    cases g <;> simp [parseGo]
  | succ f ih =>
    intro g data hf hg
    cases g with
    | zero =>
      have hnil : data = [] := List.eq_nil_of_length_eq_zero (Nat.le_zero.mp hg)
      subst hnil
      simp [parseGo]
    | succ g =>
      simp only [parseGo]
      by_cases h1 : data.length < 20
      · simp [h1]
      · simp only [h1, if_false]
        by_cases h2 : (pySlice20 data (sliceStop (beU32 (sliceN data 12 4))
            (if 34 ≤ dev.version then 36 else 8))).length = 0
        · simp only [h2, if_true]
          by_cases h3 : 16 + beU32 (sliceN data 12 4) + 28 < data.length
          · simp only [h3, if_true]
            apply ih
            · simp only [List.length_drop]; omega
            · simp only [List.length_drop]; omega
          · simp [h3]
        · simp [h2]

theorem parse_response_short {J : Type} (P : Prims J) (dev : TuyaDevice)
    (data : List Nat) (h : data.length < 20) :
    _parse_response P dev data = ParseResult.errShort := by
  unfold _parse_response
  cases hd : data.length with
  | zero => simp [parseGo]
  | succ n =>
    simp only [parseGo]
    rw [if_pos (by omega : data.length < 20)]


theorem parse_response_tail {J : Type} (P : Prims J) (dev : TuyaDevice)
    (data : List Nat) (h20 : 20 ≤ data.length)
    (hne : (pySlice20 data (sliceStop (beU32 (sliceN data 12 4))
      (if 34 ≤ dev.version then 36 else 8))).length ≠ 0) :
    _parse_response P dev data =
      parseTail P dev (pySlice20 data (sliceStop (beU32 (sliceN data 12 4))
        (if 34 ≤ dev.version then 36 else 8))) := by
  unfold _parse_response
  obtain ⟨n, hd⟩ : ∃ n, data.length = n + 1 := ⟨data.length - 1, by omega⟩
  rw [hd]
  simp only [parseGo]
  rw [if_neg (by omega : ¬ data.length < 20), if_neg hne]

theorem jsonFinish_ne_extract {J : Type} (P : Prims J) (payload : List Nat) :
    jsonFinish P payload ≠ ParseResult.errExtract := by
  unfold jsonFinish
  cases P.jloads payload <;> simp

theorem parseTail_ne_extract {J : Type} (P : Prims J) (dev : TuyaDevice)
    (payload : List Nat) : parseTail P dev payload ≠ ParseResult.errExtract := by
  unfold parseTail
  by_cases h34 : 34 ≤ dev.version
  · simp only [h34, if_true]
    cases _decrypt P dev payload with
    | none => simp
    | some pl0 => exact jsonFinish_ne_extract P _
  · simp only [h34, if_false]
    by_cases h33 : 33 ≤ dev.version
    · simp only [h33, if_true]
      cases _decrypt P dev
          (if versionHeader33.isPrefixOf payload then payload.drop 15 else payload) with
      | none => simp
      | some pl2 => exact jsonFinish_ne_extract P _
    · simp only [h33, if_false]
      exact jsonFinish_ne_extract P _

theorem parseGo_ne_extract {J : Type} (P : Prims J) (dev : TuyaDevice) :
    ∀ fuel data, parseGo P dev fuel data ≠ ParseResult.errExtract := by
  intro fuel
  induction fuel with
  | zero => intro data; simp [parseGo]
  | succ f ih =>
    intro data
    simp only [parseGo]
    by_cases h1 : data.length < 20
    · simp [h1]
    · simp only [h1, if_false]
      by_cases h2 : (pySlice20 data (sliceStop (beU32 (sliceN data 12 4))
          (if 34 ≤ dev.version then 36 else 8))).length = 0
      · simp only [h2, if_true]
        by_cases h3 : 16 + beU32 (sliceN data 12 4) + 28 < data.length
        · simp only [h3, if_true]; exact ih _
        · simp [h3]
      · simp only [h2, if_false]
        exact parseTail_ne_extract P dev _

/-! ## Claim C5 -/

/-- C5: when the extracted payload slice of the leading frame is empty,
`_parse_response` treats the frame as acknowledgment-only: with more than
28 bytes beyond the frame's declared length it recurses into the
remainder and returns that parse's result (so an empty-payload frame
followed by a full frame yields the second frame's parsed content), and
otherwise returns a bare success result carrying the return code. -/
theorem C5_ack_continuation {J : Type} (P : Prims J) (dev : TuyaDevice)
    (f1 rest : List Nat) (plen : Nat)
    (h20 : 20 ≤ f1.length)
    (hplen : beU32 (sliceN (f1 ++ rest) 12 4) = plen)
    (hf1 : f1.length = 16 + plen)
    (hempty : pySlice20 (f1 ++ rest)
      (sliceStop plen (if 34 ≤ dev.version then 36 else 8)) = []) :
    (28 < rest.length → _parse_response P dev (f1 ++ rest) = _parse_response P dev rest) ∧
    (rest.length ≤ 28 →
      _parse_response P dev (f1 ++ rest) =
        ParseResult.ack (beU32 (sliceN (f1 ++ rest) 16 4))) := by
  have hdl : (f1 ++ rest).length = 16 + plen + rest.length := by
    simp only [List.length_append, hf1]
  have hdrop : (f1 ++ rest).drop (16 + plen) = rest := by
    rw [← hf1]; exact drop_len_append f1 rest
  constructor
  · intro hr
    unfold _parse_response
    obtain ⟨n, hd⟩ : ∃ n, (f1 ++ rest).length = n + 1 := ⟨(f1 ++ rest).length - 1, by omega⟩
    rw [hd]
    simp only [parseGo]
    rw [if_neg (by omega : ¬ (f1 ++ rest).length < 20), hplen, hempty]
    simp only [List.length_nil, if_true]
    rw [if_pos (by omega : 16 + plen + 28 < (f1 ++ rest).length), hdrop]
    exact parseGo_irrel P dev n rest.length rest (by omega) (le_refl _)
  · intro hr
    unfold _parse_response
    obtain ⟨n, hd⟩ : ∃ n, (f1 ++ rest).length = n + 1 := ⟨(f1 ++ rest).length - 1, by omega⟩
    rw [hd]
    simp only [parseGo]
    rw [if_neg (by omega : ¬ (f1 ++ rest).length < 20), hplen, hempty]
    simp only [List.length_nil, if_true]
    rw [if_neg (by omega : ¬ 16 + plen + 28 < (f1 ++ rest).length)]

/-- Witness for C5 at a concrete buffer: a 28-byte acknowledgment frame
followed by a full version-3.1 frame parses to the second frame's
content. -/
theorem C5_ack_continuation_witness :
    _parse_response toyPrims dev31W (ackFrameW ++ fullFrameW) =
      _parse_response toyPrims dev31W fullFrameW ∧
    _parse_response toyPrims dev31W fullFrameW = ParseResult.ok [49] :=
  ⟨(C5_ack_continuation toyPrims dev31W ackFrameW fullFrameW 12 (by decide) (by decide)
      (by decide) (by decide)).1 (by decide), by decide⟩

/-! ## Claim C4 (corrected) -/

/-- C4 (amended): `_parse_response` fails with the too-short error for
every buffer under 20 bytes, and the extraction-failure return is
unreachable for every buffer — Python's slice clamps instead of raising,
so a declared length inconsistent with the buffer yields an empty or
clamped payload slice that is handled by the later stages. -/
theorem C4_frame_too_short_only {J : Type} (P : Prims J) (dev : TuyaDevice) :
    (∀ data : List Nat, data.length < 20 →
      _parse_response P dev data = ParseResult.errShort) ∧
    (∀ data : List Nat, _parse_response P dev data ≠ ParseResult.errExtract) := by
  constructor
  · intro data h
    exact parse_response_short P dev data h
  · intro data
    exact parseGo_ne_extract P dev data.length data

/-- Counterexample to C4 as stated: this 20-byte buffer declares a
payload length of 9999 — inconsistent with its contents — yet
`_parse_response` returns an acknowledgment, not the extraction error. -/
theorem C4_extract_error_counterexample :
    _parse_response toyPrims dev33W badLenBufW = ParseResult.ack 0 ∧
    badLenBufW.length < 16 + beU32 (sliceN badLenBufW 12 4) ∧
    (ParseResult.ack 0 : ParseResult (List Nat)) ≠ ParseResult.errExtract := by
  decide

/-- Witness for the amended C4 at concrete buffers. -/
theorem C4_frame_too_short_only_witness :
    _parse_response toyPrims dev33W [] = ParseResult.errShort ∧
    _parse_response toyPrims dev33W badLenBufW ≠ ParseResult.errExtract :=
  ⟨(C4_frame_too_short_only toyPrims dev33W).1 [] (by decide),
   (C4_frame_too_short_only toyPrims dev33W).2 badLenBufW⟩

/-! ## Claim C10 -/

/-- C10: `_unpad` is partial — on the empty byte string the source
raises (modelled `none`), and on every non-empty byte string whose final
byte is 0 it returns the empty byte string (Python's `data[:-0]` is
`data[:0]`, discarding the whole input rather than trimming nothing). -/
theorem C10_unpad_partial :
    _unpad [] = none ∧
    ∀ data : List Nat, data.getLast? = some 0 → _unpad data = some [] := by
  constructor
  · rfl
  · intro data h
    unfold _unpad
    rw [h]
    simp

/-- Witness for C10 at a concrete input ending in a zero byte. -/
theorem C10_unpad_partial_witness : _unpad [7, 0] = some [] :=
  C10_unpad_partial.2 [7, 0] (by decide)

/-! ## Claim C3 -/

/-- C3: `_build_payload` orders header and encryption by version — for
version ≥ 3.4 it prepends the 15-byte `3.4` tag (unless the command is
in the no-header set) and then encrypts the whole buffer with the active
key; for version 3.3 it encrypts first and then prepends the analogous
`3.3` tag, never encrypting the tag itself — and appends as checksum an
HMAC-SHA256 keyed by the active key over everything built so far
(≥ 3.4) or a CRC32 over everything after the 4-byte magic (other
versions), as spelled out by `specFrame34`/`specFrame33`/
`specFrameLegacy`. -/
theorem C3_build_frame_structure {J : Type} (P : Prims J) (dev : TuyaDevice)
    (cmd : Nat) (data : Option J) :
    (34 ≤ dev.version →
      _build_payload P dev cmd data =
        ({ dev with seq := dev.seq + 1 }, specFrame34 P dev cmd data)) ∧
    (33 ≤ dev.version → dev.version < 34 →
      _build_payload P dev cmd data =
        ({ dev with seq := dev.seq + 1 }, specFrame33 P dev cmd data)) ∧
    (dev.version < 33 →
      _build_payload P dev cmd data =
        ({ dev with seq := dev.seq + 1 }, specFrameLegacy P dev cmd data)) := by
  refine ⟨fun h34 => ?_, fun h33 h34 => ?_, fun h33 => ?_⟩
  · unfold _build_payload encodeJsonData specFrame34
    simp only [h34, if_true, if_pos h34]
  · have h34n : ¬ 34 ≤ dev.version := by omega
    unfold _build_payload encodeJsonData specFrame33
    simp only [h34n, if_false, if_neg h34n, h33, if_true, if_pos h33]
  · have h34n : ¬ 34 ≤ dev.version := by omega
    have h33n : ¬ 33 ≤ dev.version := by omega
    unfold _build_payload encodeJsonData specFrameLegacy
    simp only [h34n, h33n, if_false, if_neg h34n, if_neg h33n]

/-- Witness for C3 at a concrete version-3.4 device and command outside
the no-header set. -/
theorem C3_build_frame_structure_witness :
    _build_payload toyPrims dev34W 7 none =
      ({ dev34W with seq := dev34W.seq + 1 }, specFrame34 toyPrims dev34W 7 none) :=
  (C3_build_frame_structure toyPrims dev34W 7 none).1 (by decide)

/-! ## Session negotiation lemmas -/

theorem build_fst {J : Type} (P : Prims J) (dev : TuyaDevice) (cmd : Nat)
    (data : Option J) :
    (_build_payload P dev cmd data).fst = { dev with seq := dev.seq + 1 } := rfl

theorem negotiate_step2 {J : Type} (P : Prims J) (dev : TuyaDevice)
    (resp decrypted : List Nat)
    (hver : 34 ≤ dev.version)
    (hkey : dev.local_key = dev.real_local_key)
    (hlen : 28 ≤ resp.length)
    (hcmd : beU32 (sliceN resp 8 4) = 4)
    (hdec : _unpad (P.aesDec dev.real_local_key
      (pySlice20 resp (sliceStop (beU32 (sliceN resp 12 4)) 36))) = some decrypted)
    (hdlen : 48 ≤ decrypted.length) :
    _negotiate_session_key P dev resp =
      if sliceN decrypted 16 32 = hmac_sha256 P dev.real_local_key LOCAL_NONCE then
        ({ dev with
            local_nonce := some LOCAL_NONCE
            seq := dev.seq + 1 + 1
            remote_nonce := some (decrypted.take 16)
            session_key := some ((P.aesEnc dev.real_local_key
              (_pad (xorBytes LOCAL_NONCE (decrypted.take 16)))).take 16)
            local_key := (P.aesEnc dev.real_local_key
              (_pad (xorBytes LOCAL_NONCE (decrypted.take 16)))).take 16 }, true)
      else
        ({ dev with
            local_nonce := some LOCAL_NONCE
            seq := dev.seq + 1
            remote_nonce := some (decrypted.take 16) }, false) := by
  simp only [_negotiate_session_key, build_fst, _decrypt, _encrypt, Option.getD_some]
  rw [if_neg (by omega : ¬ dev.version < 34)]
  rw [if_neg (by omega : ¬ resp.length < 28)]
  simp only [hcmd]
  rw [if_neg (by simp : ¬ (4 : Nat) ≠ 4)]
  rw [hkey, hdec]
  simp only []
  rw [if_neg (by omega : ¬ decrypted.length < 48)]
  by_cases hr : sliceN decrypted 16 32 = hmac_sha256 P dev.real_local_key LOCAL_NONCE
  · rw [if_pos hr, if_neg (by simp [hr] : ¬ sliceN decrypted 16 32 ≠
      hmac_sha256 P dev.real_local_key LOCAL_NONCE)]
  · rw [if_neg hr, if_pos hr]

theorem buildTrace_local_key {J : Type} (P : Prims J) :
    ∀ (reqs : List (Nat × Option J)) (dev : TuyaDevice),
      (buildTrace P dev reqs).local_key = dev.local_key := by
  intro reqs
  induction reqs with
  | nil => intro dev; rfl
  | cons r t ih =>
    intro dev
    simp only [buildTrace, List.foldl_cons]
    exact ih _

/-! ## Claims C1 and C2 -/

/-- C1: in the 3.4 handshake, when the peer's step-2 tag disagrees with
`hmac_sha256(realKey, local_nonce)` the negotiation fails and the active
key still equals the real pre-shared key; when it agrees, negotiation
succeeds and the active key becomes the derived session key (and so
differs from the real key whenever the derived value does). -/
theorem C1_hmac_gate {J : Type} (P : Prims J) (dev : TuyaDevice)
    (resp decrypted : List Nat)
    (hver : 34 ≤ dev.version)
    (hkey : dev.local_key = dev.real_local_key)
    (hlen : 28 ≤ resp.length)
    (hcmd : beU32 (sliceN resp 8 4) = 4)
    (hdec : _unpad (P.aesDec dev.real_local_key
      (pySlice20 resp (sliceStop (beU32 (sliceN resp 12 4)) 36))) = some decrypted)
    (hdlen : 48 ≤ decrypted.length) :
    (sliceN decrypted 16 32 ≠ hmac_sha256 P dev.real_local_key LOCAL_NONCE →
      (_negotiate_session_key P dev resp).snd = false ∧
      (_negotiate_session_key P dev resp).fst.local_key = dev.real_local_key) ∧
    (sliceN decrypted 16 32 = hmac_sha256 P dev.real_local_key LOCAL_NONCE →
      (_negotiate_session_key P dev resp).snd = true ∧
      (_negotiate_session_key P dev resp).fst.local_key =
        (P.aesEnc dev.real_local_key
          (_pad (xorBytes LOCAL_NONCE (decrypted.take 16)))).take 16 ∧
      ((P.aesEnc dev.real_local_key
          (_pad (xorBytes LOCAL_NONCE (decrypted.take 16)))).take 16 ≠
            dev.real_local_key →
        (_negotiate_session_key P dev resp).fst.local_key ≠ dev.real_local_key)) := by
  have hstep := negotiate_step2 P dev resp decrypted hver hkey hlen hcmd hdec hdlen
  constructor
  · intro hne
    rw [hstep, if_neg hne]
    exact ⟨rfl, hkey ▸ rfl⟩
  · intro heq
    rw [hstep, if_pos heq]
    refine ⟨rfl, rfl, ?_⟩
    intro hne hcontra
    exact hne hcontra

/-- C2: after a successful step-2 verification the derived session key
equals the block-cipher encryption, under the real pre-shared key, of
the byte-wise XOR of the local and remote nonces, truncated to 16 bytes,
and it is the active key for every subsequent frame built on the
connection. -/
theorem C2_session_key_derivation {J : Type} (P : Prims J) (dev : TuyaDevice)
    (resp decrypted : List Nat)
    (hver : 34 ≤ dev.version)
    (hkey : dev.local_key = dev.real_local_key)
    (hlen : 28 ≤ resp.length)
    (hcmd : beU32 (sliceN resp 8 4) = 4)
    (hdec : _unpad (P.aesDec dev.real_local_key
      (pySlice20 resp (sliceStop (beU32 (sliceN resp 12 4)) 36))) = some decrypted)
    (hdlen : 48 ≤ decrypted.length)
    (hhm : sliceN decrypted 16 32 = hmac_sha256 P dev.real_local_key LOCAL_NONCE) :
    (_negotiate_session_key P dev resp).snd = true ∧
    (_negotiate_session_key P dev resp).fst.local_key =
      (P.aesEnc dev.real_local_key
        (_pad (xorBytes LOCAL_NONCE (decrypted.take 16)))).take 16 ∧
    (_negotiate_session_key P dev resp).fst.session_key =
      some ((P.aesEnc dev.real_local_key
        (_pad (xorBytes LOCAL_NONCE (decrypted.take 16)))).take 16) ∧
    ∀ reqs : List (Nat × Option J),
      (buildTrace P (_negotiate_session_key P dev resp).fst reqs).local_key =
        (P.aesEnc dev.real_local_key
          (_pad (xorBytes LOCAL_NONCE (decrypted.take 16)))).take 16 := by
  have hstep := negotiate_step2 P dev resp decrypted hver hkey hlen hcmd hdec hdlen
  rw [hstep, if_pos hhm]
  refine ⟨rfl, rfl, rfl, ?_⟩
  intro reqs
  rw [buildTrace_local_key]

/-- Witness for C1 at a concrete mismatching step-2 response: the
handshake fails and the active key remains the real key. -/
theorem C1_hmac_gate_witness :
    (_negotiate_session_key toyPrims dev34W respBadW).snd = false ∧
    (_negotiate_session_key toyPrims dev34W respBadW).fst.local_key =
      dev34W.real_local_key :=
  (C1_hmac_gate toyPrims dev34W respBadW
      (List.replicate 16 0 ++ List.replicate 32 97) (by decide) (by decide)
      (by decide) (by decide) (by decide) (by decide)).1 (by decide)

/-- Witness for C2 at a concrete verifying step-2 response: the handshake
succeeds and the active key becomes the derived session key. -/
theorem C2_session_key_derivation_witness :
    (_negotiate_session_key toyPrims dev34W respGoodW).snd = true ∧
    (_negotiate_session_key toyPrims dev34W respGoodW).fst.local_key =
      (toyPrims.aesEnc dev34W.real_local_key
        (_pad (xorBytes LOCAL_NONCE ((List.replicate 16 0 ++ goodHmacW).take 16)))).take 16 ∧
    (_negotiate_session_key toyPrims dev34W respGoodW).fst.session_key =
      some ((toyPrims.aesEnc dev34W.real_local_key
        (_pad (xorBytes LOCAL_NONCE ((List.replicate 16 0 ++ goodHmacW).take 16)))).take 16) ∧
    ∀ reqs : List (Nat × Option (List Nat)),
      (buildTrace toyPrims (_negotiate_session_key toyPrims dev34W respGoodW).fst
          reqs).local_key =
        (toyPrims.aesEnc dev34W.real_local_key
          (_pad (xorBytes LOCAL_NONCE ((List.replicate 16 0 ++ goodHmacW).take 16)))).take 16 :=
  C2_session_key_derivation toyPrims dev34W respGoodW
    (List.replicate 16 0 ++ goodHmacW) (by decide) (by decide) (by decide)
    (by decide) (by decide) (by decide) (by decide)

/-! ## Claim C6 -/

theorem buildTrace_seq {J : Type} (P : Prims J) :
    ∀ (reqs : List (Nat × Option J)) (dev : TuyaDevice),
      (buildTrace P dev reqs).seq = dev.seq + reqs.length := by
  intro reqs
  induction reqs with
  | nil => intro dev; simp [buildTrace]
  | cons r t ih =>
    intro dev
    simp only [buildTrace, List.foldl_cons] at ih ⊢
    rw [ih, build_fst]
    simp only [List.length_cons]
    omega

/-- C6: on one connection the sequence counter starts at 0, is bumped by
exactly 1 before each outgoing frame (so frames built after different
numbers of prior builds never share a counter value), and only
`disconnect` resets it to 0. -/
theorem C6_sequence_numbers (J : Type) (P : Prims J) :
    (∀ (device_id ip : String) (key : List Nat) (version : Nat),
      (TuyaDevice.init device_id ip key version).seq = 0) ∧
    (∀ (dev : TuyaDevice) (cmd : Nat) (data : Option J),
      (_build_payload P dev cmd data).fst.seq = dev.seq + 1) ∧
    (∀ (dev : TuyaDevice) (reqs : List (Nat × Option J)),
      (buildTrace P dev reqs).seq = dev.seq + reqs.length) ∧
    (∀ dev : TuyaDevice, (disconnect dev).seq = 0) ∧
    (∀ (dev : TuyaDevice) (reqs reqs2 : List (Nat × Option J))
      (c c2 : Nat) (d d2 : Option J), reqs.length ≠ reqs2.length →
      (_build_payload P (buildTrace P dev reqs) c d).fst.seq ≠
        (_build_payload P (buildTrace P dev reqs2) c2 d2).fst.seq) := by
  refine ⟨fun _ _ _ _ => rfl, fun _ _ _ => rfl, fun dev reqs => buildTrace_seq P reqs dev,
    fun _ => rfl, ?_⟩
  intro dev reqs reqs2 c c2 d d2 hne
  rw [build_fst, build_fst]
  simp only [buildTrace_seq]
  omega

/-- Witness for C6: the frame built after zero prior builds and the one
built after one prior build carry different counter values. -/
theorem C6_sequence_numbers_witness :
    (_build_payload toyPrims (buildTrace toyPrims dev31W []) 7 none).fst.seq ≠
      (_build_payload toyPrims (buildTrace toyPrims dev31W [(7, none)]) 7 none).fst.seq :=
  (C6_sequence_numbers (List Nat) toyPrims).2.2.2.2 dev31W [] [(7, none)] 7 7 none none
    (by decide)

/-! ## Claim C7 -/

theorem negotiate_fields {J : Type} (P : Prims J) (dev : TuyaDevice) (resp : List Nat) :
    (_negotiate_session_key P dev resp).fst.real_local_key = dev.real_local_key ∧
    (_negotiate_session_key P dev resp).fst.version = dev.version ∧
    (((_negotiate_session_key P dev resp).fst.local_key = dev.local_key ∧
      (_negotiate_session_key P dev resp).fst.session_key = dev.session_key) ∨
     (34 ≤ dev.version ∧
      (_negotiate_session_key P dev resp).fst.session_key =
        some (_negotiate_session_key P dev resp).fst.local_key)) := by
  unfold _negotiate_session_key
  by_cases hv : dev.version < 34
  · rw [if_pos hv]
    exact ⟨rfl, rfl, Or.inl ⟨rfl, rfl⟩⟩
  · simp only [hv, if_false, build_fst]
    split
    · exact ⟨rfl, rfl, Or.inl ⟨rfl, rfl⟩⟩
    · split
      · exact ⟨rfl, rfl, Or.inl ⟨rfl, rfl⟩⟩
      · split
        · exact ⟨rfl, rfl, Or.inl ⟨rfl, rfl⟩⟩
        · split
          · exact ⟨rfl, rfl, Or.inl ⟨rfl, rfl⟩⟩
          · split
            · exact ⟨rfl, rfl, Or.inl ⟨rfl, rfl⟩⟩
            · exact ⟨rfl, rfl, Or.inr ⟨by omega, rfl⟩⟩

theorem reach_key_inv {J : Type} (P : Prims J) :
    ∀ dev : TuyaDevice, Reach P dev →
      dev.local_key ≠ dev.real_local_key →
      34 ≤ dev.version ∧ dev.session_key = some dev.local_key := by
  intro dev h
  induction h with
  | init device_id ip key version =>
    intro hne
    exact absurd rfl hne
  | build d cmd data hr ih =>
    intro hne
    rw [build_fst] at hne ⊢
    exact ih hne
  | negotiate d resp hr ih =>
    intro hne
    obtain ⟨hreal, hver, hcase⟩ := negotiate_fields P d resp
    rcases hcase with ⟨hlk, hsk⟩ | ⟨hv, hsk⟩
    · rw [hreal, hlk] at hne
      obtain ⟨h1, h2⟩ := ih hne
      refine ⟨?_, ?_⟩
      · rw [hver]; exact h1
      · rw [hsk, hlk]; exact h2
    · refine ⟨?_, hsk⟩
      rw [hver]; exact hv
  | disc d hr ih =>
    intro hne
    exact absurd rfl hne

/-- C7: in every reachable session state, an active key that differs
from the real pre-shared key implies protocol version ≥ 3.4 and a
completed negotiation (the session key is set, and set to the active
key); and `disconnect` always restores the active key to the real key. -/
theorem C7_active_key_invariant {J : Type} (P : Prims J) (dev : TuyaDevice)
    (h : Reach P dev) :
    (dev.local_key ≠ dev.real_local_key →
      34 ≤ dev.version ∧ dev.session_key = some dev.local_key) ∧
    (disconnect dev).local_key = dev.real_local_key :=
  ⟨reach_key_inv P dev h, rfl⟩

/-- Witness for C7 at the reachable state produced by a successful
concrete negotiation, whose active key differs from the real key. -/
theorem C7_active_key_invariant_witness :
    (34 ≤ (_negotiate_session_key toyPrims dev34W respGoodW).fst.version ∧
      (_negotiate_session_key toyPrims dev34W respGoodW).fst.session_key =
        some (_negotiate_session_key toyPrims dev34W respGoodW).fst.local_key) ∧
    (disconnect (_negotiate_session_key toyPrims dev34W respGoodW).fst).local_key =
      (_negotiate_session_key toyPrims dev34W respGoodW).fst.real_local_key := by
  have h := C7_active_key_invariant toyPrims
    (_negotiate_session_key toyPrims dev34W respGoodW).fst
    (Reach.negotiate dev34W respGoodW (Reach.init "dev" "ip" realKeyW 34))
  exact ⟨h.1 (by decide), h.2⟩

/-! ## Claim C8 -/

theorem decideTarget_noQuorum (states : List (Option Bool))
    (h : states.filterMap id = []) : decideTarget states = none := by
  unfold decideTarget
  rw [h]

theorem decideTarget_uniform (states : List (Option Bool)) (b : Bool)
    (hne : states.filterMap id ≠ [])
    (hall : ∀ s ∈ states.filterMap id, s = b) :
    decideTarget states = some (!b) := by
  unfold decideTarget
  cases h : states.filterMap id with
  | nil => exact absurd h hne
  | cons v rest =>
    have hv : v = b := hall v (by rw [h]; exact List.mem_cons_self v rest)
    have hrest : rest.any (fun s => s != v) = false := by
      rw [List.any_eq_false]
      intro s hs
      have hsb : s = b := hall s (by rw [h]; exact List.mem_cons_of_mem v hs)
      simp [hsb, hv]
    dsimp only
    rw [hrest]
    simp [hv]

theorem decideTarget_mixed (states : List (Option Bool))
    (hmix : ∃ s1 ∈ states.filterMap id, ∃ s2 ∈ states.filterMap id, s1 ≠ s2) :
    decideTarget states = some true := by
  obtain ⟨s1, hs1, s2, hs2, hne⟩ := hmix
  unfold decideTarget
  cases h : states.filterMap id with
  | nil => rw [h] at hs1; exact absurd hs1 (List.not_mem_nil s1)
  | cons v rest =>
    rw [h] at hs1 hs2
    have key : ∃ s ∈ rest, s ≠ v := by
      by_cases h1v : s1 = v
      · have h2v : s2 ≠ v := fun hh => hne (h1v.trans hh.symm)
        have h2r : s2 ∈ rest := by
          rcases List.mem_cons.mp hs2 with hh | hh
          · exact absurd hh h2v
          · exact hh
        exact ⟨s2, h2r, h2v⟩
      · have h1r : s1 ∈ rest := by
          rcases List.mem_cons.mp hs1 with hh | hh
          · exact absurd hh h1v
          · exact hh
        exact ⟨s1, h1r, h1v⟩
    obtain ⟨s, hs, hsv⟩ := key
    have hany : rest.any (fun x => x != v) = true := by
      rw [List.any_eq_true]
      exact ⟨s, hs, by simp [hsv]⟩
    dsimp only
    rw [hany]
    simp

/-- C8: `toggle_all_devices` with the per-session query results — unknown
votes excluded — returns the no-quorum failure when no session reports a
known state, targets the logical inverse when all known states agree,
targets on when they disagree, and (given quorum) returns true exactly
when at least one still-connected session's set attempt succeeded. -/
theorem C8_fleet_toggle :
    (∀ devs : List FleetDevice,
      (devs.map FleetDevice.state).filterMap id = [] →
        toggle_all_devices devs = false) ∧
    (∀ (states : List (Option Bool)) (b : Bool),
      states.filterMap id ≠ [] → (∀ s ∈ states.filterMap id, s = b) →
        decideTarget states = some (!b)) ∧
    (∀ states : List (Option Bool),
      (∃ s1 ∈ states.filterMap id, ∃ s2 ∈ states.filterMap id, s1 ≠ s2) →
        decideTarget states = some true) ∧
    (∀ (devs : List FleetDevice) (t : Bool),
      decideTarget (devs.map FleetDevice.state) = some t →
        (toggle_all_devices devs = true ↔ ∃ d ∈ devs, setSuccess d = true)) := by
  refine ⟨?_, decideTarget_uniform, decideTarget_mixed, ?_⟩
  · intro devs h
    unfold toggle_all_devices
    rw [decideTarget_noQuorum _ h]
  · intro devs t hdt
    unfold toggle_all_devices
    rw [hdt]
    simp only [decide_eq_true_eq]
    constructor
    · intro hpos
      have hne : devs.filter setSuccess ≠ [] := by
        intro hnil
        rw [hnil] at hpos
        exact absurd hpos (by simp)
      obtain ⟨d, hd⟩ := List.exists_mem_of_ne_nil _ hne
      have := List.mem_filter.mp hd
      exact ⟨d, this.1, this.2⟩
    · intro ⟨d, hd, hsd⟩
      have hmem : d ∈ devs.filter setSuccess := List.mem_filter.mpr ⟨hd, hsd⟩
      have hne2 : devs.filter setSuccess ≠ [] := by
        intro hnil
        rw [hnil] at hmem
        exact (List.not_mem_nil d) hmem
      exact List.length_pos.mpr hne2

/-- Witness for C8 at the spec's own examples: mixed states target on,
uniform states invert, an all-unknown fleet fails, and success is
reported exactly when a connected device's set attempt succeeds. -/
theorem C8_fleet_toggle_witness :
    decideTarget [some true, some true, some false] = some true ∧
    decideTarget [some true, some true] = some false ∧
    toggle_all_devices [FleetDevice.mk none false SetOutcome.raises] = false ∧
    toggle_all_devices [FleetDevice.mk (some true) true SetOutcome.ok] = true :=
  ⟨C8_fleet_toggle.2.2.1 [some true, some true, some false] (by decide),
   C8_fleet_toggle.2.1 [some true, some true] true (by decide) (by decide),
   C8_fleet_toggle.1 [FleetDevice.mk none false SetOutcome.raises] (by decide),
   (C8_fleet_toggle.2.2.2 [FleetDevice.mk (some true) true SetOutcome.ok] false
      (by decide)).mpr ⟨FleetDevice.mk (some true) true SetOutcome.ok, by decide, by decide⟩⟩

/-! ## Claim C9 -/

theorem peer_parses_to_tail {J : Type} (P : Prims J) (dev : TuyaDevice)
    (cmd retcode : Nat) (data : Option J)
    (hpos : 0 < (encodeJsonData P dev cmd data).length)
    (hbound : (encodeJsonData P dev cmd data).length + 100 < 4294967296) :
    _parse_response P dev (peerResponse P dev cmd retcode data) =
      parseTail P dev (encodeJsonData P dev cmd data) := by
  set body := encodeJsonData P dev cmd data with hbody
  set s : Nat := if 34 ≤ dev.version then 36 else 8 with hs
  have hs8 : 8 ≤ s := by rw [hs]; split <;> omega
  have hs36 : s ≤ 36 := by rw [hs]; split <;> omega
  set plen : Nat := 4 + body.length + s with hplen
  set head20 : List Nat := magicHead ++ toBytesBE4 dev.seq ++ toBytesBE4 cmd ++
    toBytesBE4 plen ++ toBytesBE4 retcode with hh20
  have hsplit : peerResponse P dev cmd retcode data =
      head20 ++ (body ++ List.replicate s 0) := by
    rw [hh20]
    unfold peerResponse
    simp only [← hbody, ← hs, ← hplen, List.append_assoc]
  have hlen20 : head20.length = 20 := by rw [hh20]; rfl
  have htotal : (peerResponse P dev cmd retcode data).length = 20 + body.length + s := by
    rw [hsplit]
    simp only [List.length_append, hlen20, List.length_replicate]
    omega
  have hfield12 : sliceN (peerResponse P dev cmd retcode data) 12 4 = toBytesBE4 plen := by
    rw [hsplit, hh20]
    rfl
  have hbeu : beU32 (sliceN (peerResponse P dev cmd retcode data) 12 4) = plen := by
    rw [hfield12]
    exact beU32_toBytesBE4 plen (by omega)
  have hstop : sliceStop plen s = (20 : Int) + body.length := by
    rw [hplen]
    unfold sliceStop
    push_cast
    ring
  have hpayload : pySlice20 (peerResponse P dev cmd retcode data) (sliceStop plen s) =
      body := by
    rw [hstop, hsplit]
    exact pySlice20_exact head20 body (List.replicate s 0) hlen20
  have hne : (pySlice20 (peerResponse P dev cmd retcode data)
      (sliceStop (beU32 (sliceN (peerResponse P dev cmd retcode data) 12 4))
        (if 34 ≤ dev.version then 36 else 8))).length ≠ 0 := by
    rw [← hs, hbeu, hpayload]
    omega
  have key := parse_response_tail P dev (peerResponse P dev cmd retcode data)
    (by rw [htotal]; omega) hne
  rw [← hs, hbeu, hpayload] at key
  exact key

/-- C9: for every protocol version and every structured payload, parsing
the bytes of the synthetic symmetric peer's response — whose payload is
encoded exactly as `_build_payload` encodes it for the same session
state and key — recovers the original structured payload, given the
block-cipher round-trip and length laws, a JSON round-trip, and
object-serialisations that start with `{` (so the version-3.3 header
check cannot misfire for no-header commands; `h33set` states that the
encrypted bytes do not impersonate the header). -/
theorem C9_roundtrip {J : Type} (P : Prims J) (dev : TuyaDevice) (cmd retcode : Nat)
    (j : J)
    (hdec : ∀ k d, P.aesDec k (P.aesEnc k d) = d)
    (hlenc : ∀ k d, (P.aesEnc k d).length = d.length)
    (hload : P.jloads (P.jdumps j) = some j)
    (hhead : (P.jdumps j).head? = some 123)
    (hsz : (P.jdumps j).length + 200 < 4294967296)
    (hcmd3 : cmd ≠ 3) (hcmd5 : cmd ≠ 5)
    (h33set : 33 ≤ dev.version → dev.version < 34 → cmd ∈ NO_PROTOCOL_HEADER_CMDS →
      versionHeader33.isPrefixOf (P.aesEnc dev.local_key (_pad (P.jdumps j))) = false) :
    _parse_response P dev (peerResponse P dev cmd retcode (some j)) = ParseResult.ok j := by
  obtain ⟨jr, hjd⟩ : ∃ jr, P.jdumps j = 123 :: jr := by
    cases hj : P.jdumps j with
    | nil => rw [hj] at hhead; simp at hhead
    | cons x r =>
      rw [hj] at hhead
      simp only [List.head?_cons, Option.some.injEq] at hhead
      exact ⟨r, by rw [hhead]⟩
  have hraw : rawPayloadBytes P dev cmd (some j) = P.jdumps j := by
    unfold rawPayloadBytes
    rw [if_neg hcmd3, if_neg hcmd5]
  by_cases h34 : 34 ≤ dev.version
  · have hbody : encodeJsonData P dev cmd (some j) =
        P.aesEnc dev.local_key (_pad (if cmd ∈ NO_PROTOCOL_HEADER_CMDS then P.jdumps j
          else versionHeader34 ++ P.jdumps j)) := by
      unfold encodeJsonData _encrypt
      rw [if_pos h34, hraw]
    have hpos : 0 < (encodeJsonData P dev cmd (some j)).length := by
      rw [hbody, hlenc]
      exact pad_pos _
    have hbound : (encodeJsonData P dev cmd (some j)).length + 100 < 4294967296 := by
      rw [hbody, hlenc, pad_length]
      by_cases hm : cmd ∈ NO_PROTOCOL_HEADER_CMDS
      · rw [if_pos hm]; omega
      · rw [if_neg hm]
        simp only [List.length_append]
        have h15 : versionHeader34.length = 15 := rfl
        omega
    rw [peer_parses_to_tail P dev cmd retcode (some j) hpos hbound]
    have hdecr : _decrypt P dev (encodeJsonData P dev cmd (some j)) =
        some (if cmd ∈ NO_PROTOCOL_HEADER_CMDS then P.jdumps j
          else versionHeader34 ++ P.jdumps j) := by
      rw [hbody]
      unfold _decrypt
      rw [hdec]
      exact unpad_pad _
    unfold parseTail
    rw [if_pos h34, hdecr]
    dsimp only
    by_cases hm : cmd ∈ NO_PROTOCOL_HEADER_CMDS
    · rw [if_pos hm, hjd]
      have hpre : [51, 46, 52].isPrefixOf (123 :: jr) = false := rfl
      rw [hpre, if_neg (by simp)]
      unfold jsonFinish
      rw [← hjd, hload]
    · rw [if_neg hm]
      have hassoc : versionHeader34 ++ P.jdumps j =
          [51, 46, 52] ++ (List.replicate 12 0 ++ P.jdumps j) := by
        unfold versionHeader34
        rw [List.append_assoc]
      rw [hassoc, isPrefixOf_self_append, if_pos rfl]
      have hdrop3 : ([51, 46, 52] ++ (List.replicate 12 0 ++ P.jdumps j)).drop 3 =
          List.replicate 12 0 ++ P.jdumps j := rfl
      rw [hdrop3, dropWhile_zeros, hjd]
      have h1 : List.dropWhile (fun b => b == 0) (123 :: jr) = 123 :: jr := rfl
      have h2 : List.dropWhile (fun b => b != 123) (123 :: jr) = 123 :: jr := rfl
      rw [h1, h2, ← hjd]
      unfold jsonFinish
      rw [hload]
  · by_cases h33 : 33 ≤ dev.version
    · have hbody : encodeJsonData P dev cmd (some j) =
          (if cmd ∈ NO_PROTOCOL_HEADER_CMDS then
            P.aesEnc dev.local_key (_pad (P.jdumps j))
          else versionHeader33 ++ P.aesEnc dev.local_key (_pad (P.jdumps j))) := by
        unfold encodeJsonData _encrypt
        rw [if_neg h34, if_pos h33, hraw]
      have hpadb : (P.aesEnc dev.local_key (_pad (P.jdumps j))).length =
          (P.jdumps j).length + (16 - (P.jdumps j).length % 16) := by
        rw [hlenc, pad_length]
      have hpos : 0 < (encodeJsonData P dev cmd (some j)).length := by
        rw [hbody]
        by_cases hm : cmd ∈ NO_PROTOCOL_HEADER_CMDS
        · rw [if_pos hm, hpadb]; omega
        · rw [if_neg hm]
          simp only [List.length_append, hpadb]
          omega
      have hbound : (encodeJsonData P dev cmd (some j)).length + 100 < 4294967296 := by
        rw [hbody]
        by_cases hm : cmd ∈ NO_PROTOCOL_HEADER_CMDS
        · rw [if_pos hm, hpadb]; omega
        · rw [if_neg hm]
          simp only [List.length_append, hpadb]
          have h15 : versionHeader33.length = 15 := rfl
          omega
      rw [peer_parses_to_tail P dev cmd retcode (some j) hpos hbound]
      unfold parseTail
      rw [if_neg h34, if_pos h33]
      have hdecr : _decrypt P dev (P.aesEnc dev.local_key (_pad (P.jdumps j))) =
          some (P.jdumps j) := by
        unfold _decrypt
        rw [hdec]
        exact unpad_pad _
      by_cases hm : cmd ∈ NO_PROTOCOL_HEADER_CMDS
      · rw [hbody, if_pos hm]
        rw [h33set h33 (by omega) hm, if_neg (by simp), hdecr]
        dsimp only
        unfold jsonFinish
        rw [hload]
      · rw [hbody, if_neg hm]
        rw [isPrefixOf_self_append, if_pos rfl]
        have hd15 : (versionHeader33 ++ P.aesEnc dev.local_key (_pad (P.jdumps j))).drop 15 =
            P.aesEnc dev.local_key (_pad (P.jdumps j)) := by
          have h15 : versionHeader33.length = 15 := rfl
          rw [← h15]
          exact drop_len_append _ _
        rw [hd15, hdecr]
        dsimp only
        unfold jsonFinish
        rw [hload]
    · have hbody : encodeJsonData P dev cmd (some j) = P.jdumps j := by
        unfold encodeJsonData
        rw [if_neg h34, if_neg h33, hraw]
      have hpos : 0 < (encodeJsonData P dev cmd (some j)).length := by
        rw [hbody, hjd]
        simp
      have hbound : (encodeJsonData P dev cmd (some j)).length + 100 < 4294967296 := by
        rw [hbody]
        omega
      rw [peer_parses_to_tail P dev cmd retcode (some j) hpos hbound]
      unfold parseTail
      rw [if_neg h34, if_neg h33, hbody]
      unfold jsonFinish
      rw [hload]

/-- Witness for C9 at a concrete version-3.3 device, command 7 and
payload `[49]`, with the identity block cipher discharging the cipher
laws. -/
theorem C9_roundtrip_witness :
    _parse_response toyPrims dev33W (peerResponse toyPrims dev33W 7 0 (some [49])) =
      ParseResult.ok [49] :=
  C9_roundtrip toyPrims dev33W 7 0 [49] (fun _ _ => rfl) (fun _ _ => rfl)
    (by decide) (by decide) (by decide) (by decide) (by decide) (by decide)
